import Mathlib

/-!
Verification of the TwitchEC emote-counter core: a shallow embedding of the
emote catalog (the EmoteManager module), the statistics store (StatsHandler)
and the message classifier (EmoteProcessor.processMessage), with theorems
about milestone detection, counter updates, catalog lookup and refresh,
snapshot round-trips, the promise-chained save queue, memory release and
user ranking.

JavaScript objects are modelled as insertion-ordered association lists
(`List (String × α)`); JS `null` or missing string arguments are
`Option String` with JS truthiness (`none` and `some ""` are falsy);
timestamps are `Nat` milliseconds.
-/

namespace TwitchEC

/-- JS truthiness of a nullable string: `null` (`none`) and the empty string
are falsy, every other string is truthy. -/
def truthy : Option String → Bool
  | none => false
  | some s => s ≠ ""

/-- Property read `obj[k]` on a JS object modelled as an insertion-ordered
association list: the value at the first matching key, or `undefined` (`none`). -/
def jsGet {α : Type} : List (String × α) → String → Option α
  | [], _ => none
  | (k1, v1) :: l, k => if k1 = k then some v1 else jsGet l k

/-- Property write `obj[k] = v`: overwrites the value at an existing key in
place, otherwise appends the new key at the end (JS string-keyed objects keep
insertion order). -/
def jsSet {α : Type} : List (String × α) → String → α → List (String × α)
  | [], k, v => [(k, v)]
  | (k1, v1) :: l, k, v => if k1 = k then (k1, v) :: l else (k1, v1) :: jsSet l k v

/-- In-place update `obj[k] = f(obj[k])` of an existing key; no-op when the
key is absent. -/
def updateF {α : Type} : List (String × α) → String → (α → α) → List (String × α)
  | [], _, _ => []
  | (k1, v1) :: l, k, f => if k1 = k then (k1, f v1) :: l else (k1, v1) :: updateF l k f

/-- Splits a character list at every space, keeping empty segments, so that
mapping back to strings gives exactly `text.split(' ')`. -/
def splitWords : List Char → List (List Char)
  | [] => [[]]
  | c :: rest =>
    match splitWords rest with
    | [] => []
    | w :: ws => if c = ' ' then [] :: w :: ws else (c :: w) :: ws

/-- JS `text.split(' ')`: segments between single spaces, empty segments
kept (consecutive spaces yield empty strings, like the source). -/
def jsSplitOnSpace (s : String) : List String :=
  (splitWords s.toList).map (fun cs => String.mk cs)

/-- JS `s.toLowerCase()` on the ASCII chat names the program handles:
uppercase ASCII letters are mapped down, everything else is unchanged
(structural, so concrete instances evaluate). -/
def jsToLower (s : String) : String :=
  String.mk (s.toList.map (fun c =>
    if 65 ≤ c.toNat ∧ c.toNat ≤ 90 then Char.ofNat (c.toNat + 32) else c))

/-- The counter read `obj[k] || 0` used throughout the stats handler. -/
def countOf (l : List (String × Nat)) (k : String) : Nat :=
  (jsGet l k).getD 0

/-- The counter update `obj[k] = (obj[k] || 0) + 1` used throughout the
stats handler. -/
def bumpCount (l : List (String × Nat)) (k : String) : List (String × Nat) :=
  jsSet l k (countOf l k + 1)

/-! ### Emote catalog (EmoteManager) -/

/-- A cached emote record as produced by the provider services: at least an
id, the chat code, the originating platform and an animation flag. -/
structure EmoteRecord where
  id : String
  code : String
  platform : String
  animated : Bool
deriving DecidableEq, Repr

/-- In-memory state of the EmoteManager: the code-to-record map (a JS `Map`,
insertion ordered), the `lastUpdate` timestamp and the configured refresh
interval in milliseconds. -/
structure Catalog where
  emotes : List (String × EmoteRecord)
  lastUpdate : Nat
  refreshInterval : Nat
deriving DecidableEq, Repr

/-- `isEmote(word)`: the record is looked up in the cached map and the result
is `Boolean(emote && config.enabledPlatforms[emote.platform])` — the platform
enablement flags are read from configuration at query time. -/
def isEmote (enabled : String → Bool) (cat : Catalog) (word : String) : Bool :=
  match jsGet cat.emotes word with
  | none => false
  | some e => enabled e.platform

/-- `getEmoteInfo(word)`: returns the cached record when present and its
platform is currently enabled, `null` otherwise. -/
def getEmoteInfo (enabled : String → Bool) (cat : Catalog) (word : String) :
    Option EmoteRecord :=
  match jsGet cat.emotes word with
  | none => none
  | some e => if enabled e.platform then some e else none

/-- Configuration update that flips a single platform's enabled flag and
leaves every other flag alone (`config.enabledPlatforms[p] = b`). -/
def setFlag (enabled : String → Bool) (p : String) (b : Bool) : String → Bool :=
  fun q => if q = p then b else enabled q

/-- `shouldRefresh()`: `Date.now() - this.lastUpdate >= this.refreshInterval`
(truncated subtraction; the clock never runs backwards). -/
def shouldRefresh (cat : Catalog) (now : Nat) : Bool :=
  decide (cat.refreshInterval ≤ now - cat.lastUpdate)

/-- The eight provider responses gathered by `fetchEmotesFromAllSources`
(channel and global lists from Twitch, 7TV, BTTV and FFZ). -/
structure ProviderResults where
  twitchEmotes : List EmoteRecord
  globalTwitchEmotes : List EmoteRecord
  sevenTvEmotes : List EmoteRecord
  sevenTvGlobalEmotes : List EmoteRecord
  bttvEmotes : List EmoteRecord
  bttvGlobalEmotes : List EmoteRecord
  ffzEmotes : List EmoteRecord
  ffzGlobalEmotes : List EmoteRecord

/-- Flattens the eight provider lists in source order and keeps entries with
a truthy `code` (the JS filter `emote && emote.code`; records themselves are
never null in the model). -/
def fetchEmotesFromAllSources (r : ProviderResults) : List EmoteRecord :=
  (r.twitchEmotes ++ r.globalTwitchEmotes ++ r.sevenTvEmotes ++ r.sevenTvGlobalEmotes ++
    r.bttvEmotes ++ r.bttvGlobalEmotes ++ r.ffzEmotes ++ r.ffzGlobalEmotes).filter
    (fun e => e.code ≠ "")

/-- `updateEmoteCache(emotes)`: clears the map, re-inserts every fetched
record keyed by code (last writer wins), bumps `lastUpdate`. The subsequent
`saveCache()` disk write is reported by the caller as a flag. -/
def updateEmoteCache (cat : Catalog) (emotes : List EmoteRecord) (now : Nat) : Catalog :=
  { cat with
    emotes := emotes.foldl (fun m e => jsSet m e.code e) []
    lastUpdate := now }

/-- `resolveChannelId`: the JS short-circuit
`config.channelTwitchId || channelId || await twitch.getUserId(channelName)`.
Returns the resolved id together with the number of identity-provider network
calls made (1 exactly when the lookup branch is reached). -/
def resolveChannelId (cfgId chanId lookedUpId : Option String) : Option String × Nat :=
  if truthy cfgId then (cfgId, 0)
  else if truthy chanId then (chanId, 0)
  else (lookedUpId, 1)

/-- `refreshEmotes(channelId, channelName)`: a no-op inside the refresh
interval; otherwise resolves the channel id (hard failure when falsy), makes
the eight concurrent provider calls, replaces the map, bumps `lastUpdate` and
persists a snapshot. The result carries the new catalog (or the propagated
error), the number of network calls performed and whether a snapshot write
was issued. -/
def refreshEmotes (cat : Catalog) (now : Nat) (cfgId chanId lookedUpId : Option String)
    (pr : ProviderResults) : Except String Catalog × Nat × Bool :=
  if shouldRefresh cat now then
    let rc := resolveChannelId cfgId chanId lookedUpId
    if truthy rc.1 then
      (Except.ok (updateEmoteCache cat (fetchEmotesFromAllSources pr) now), rc.2 + 8, true)
    else
      (Except.error "Could not resolve channel ID", rc.2, false)
  else
    (Except.ok cat, 0, false)

/-! ### Statistics store (StatsHandler) -/

/-- Per-user counters: cumulative `total`, per-emote and per-platform counts
(JS objects, insertion ordered), and first/last-seen timestamps. -/
structure UserStats where
  total : Nat
  emotes : List (String × Nat)
  platforms : List (String × Nat)
  firstSeen : Nat
  lastSeen : Nat
deriving DecidableEq, Repr

/-- The fresh record `{total: 0, emotes: {}, platforms: {}, firstSeen: now,
lastSeen: now}` created on a user's first appearance. -/
def emptyUser (now : Nat) : UserStats :=
  { total := 0, emotes := [], platforms := [], firstSeen := now, lastSeen := now }

/-- Process-wide metrics persisted alongside the user stats. -/
structure Metrics where
  messagesProcessed : Nat
  emotesDetected : Nat
  commandsExecuted : Nat
  lastSaveAttempt : Nat
  totalSaves : Nat
  failedSaves : Nat
deriving DecidableEq, Repr

/-- Milestone configuration: the ordered threshold list
(`bot.config.milestones.values`) and the finished celebration text per
threshold. `mkMessage m` abstracts
`milestoneMessages[m].replace(placeholder, m.toLocaleString())` together with
the optional AI override that may replace the template — neither affects
which thresholds fire nor their order. -/
structure StatsConfig where
  milestones : List Nat
  mkMessage : Nat → String

/-- One element of the array returned by `checkMilestone`:
`{count: milestone, message: ...}`. -/
structure MilestoneHit where
  count : Nat
  message : String
deriving DecidableEq, Repr

/-- `checkMilestone(prevTotal, newTotal, username)`: walks the configured
thresholds in order, keeps those with `prevTotal < m && newTotal >= m`,
builds each hit's message, and returns the array, or `null` when empty. -/
def checkMilestone (cfg : StatsConfig) (prevTotal newTotal : Nat) :
    Option (List MilestoneHit) :=
  let reached := (cfg.milestones.filter
    (fun m => decide (prevTotal < m) && decide (newTotal ≥ m))).map
    (fun m => MilestoneHit.mk m (cfg.mkMessage m))
  if reached.isEmpty then none else some reached

/-- The milestone counts reported by one `checkMilestone` call (an empty list
for the `null` result). -/
def firedCounts (cfg : StatsConfig) (prevTotal newTotal : Nat) : List Nat :=
  ((checkMilestone cfg prevTotal newTotal).getD []).map (fun h => h.count)

/-- `incrementStats(username, emote, platform, totalOnly)` on the loaded
user-stats map. Mirrors the source statement by statement: falsy username
returns `undefined` with no change; `prevTotal = stats[u]?.total || 0`; a
missing entry is created; `total` increments when `totalOnly || (emote &&
platform)`; the per-emote and per-platform counters increment when
`emote && platform`; `lastSeen` updates; milestones are computed from
`prevTotal`/`newTotal`. The top-user file rewrite is a disk side effect that
does not touch the map and is not modelled. Returns the new map and
`some (milestones, stats[u])`, or `none` for the early return. -/
def incrementStats (cfg : StatsConfig) (stats : List (String × UserStats))
    (username emote platform : Option String) (totalOnly : Bool) (now : Nat) :
    List (String × UserStats) × Option (Option (List MilestoneHit) × UserStats) :=
  match username with
  | none => (stats, none)
  | some u =>
    if u = "" then (stats, none)
    else
      let prevTotal := ((jsGet stats u).map (fun s => s.total)).getD 0
      let stats1 := match jsGet stats u with
        | some _ => stats
        | none => jsSet stats u (emptyUser now)
      let stats2 := if totalOnly || (truthy emote && truthy platform) then
          updateF stats1 u (fun s => { s with total := s.total + 1 })
        else stats1
      let stats3 := if truthy emote && truthy platform then
          updateF stats2 u (fun s =>
            { s with emotes := bumpCount s.emotes (emote.getD "")
                     platforms := bumpCount s.platforms (platform.getD "") })
        else stats2
      let stats4 := updateF stats3 u (fun s => { s with lastSeen := now })
      let newTotal := ((jsGet stats4 u).map (fun s => s.total)).getD 0
      let ms := checkMilestone cfg prevTotal newTotal
      (stats4, some (ms, (jsGet stats4 u).getD (emptyUser now)))

/-- `incrementEmoteCount(username, emote, platform)`: early return leaving
the map untouched when any argument is falsy; otherwise creates the user
entry if absent, bumps the per-emote and per-platform counters and updates
`lastSeen`. -/
def incrementEmoteCount (stats : List (String × UserStats))
    (username emote platform : Option String) (now : Nat) :
    List (String × UserStats) :=
  if truthy username && truthy emote && truthy platform then
    let u := username.getD ""
    let stats1 := match jsGet stats u with
      | some _ => stats
      | none => jsSet stats u (emptyUser now)
    updateF stats1 u (fun s =>
      { s with emotes := bumpCount s.emotes (emote.getD "")
               platforms := bumpCount s.platforms (platform.getD "")
               lastSeen := now })
  else stats

/-- Reads `stats[u]?.total || 0`, the cumulative total of one user. -/
def userTotal (stats : List (String × UserStats)) (u : String) : Nat :=
  ((jsGet stats u).map (fun s => s.total)).getD 0

/-- Reads one user's count for one emote code (0 when absent). -/
def userEmoteCount (stats : List (String × UserStats)) (u e : String) : Nat :=
  countOf (((jsGet stats u).map (fun s => s.emotes)).getD []) e

/-- Reads one user's count for one platform (0 when absent). -/
def userPlatformCount (stats : List (String × UserStats)) (u p : String) : Nat :=
  countOf (((jsGet stats u).map (fun s => s.platforms)).getD []) p

/-- Arguments of one `incrementStats` call in a sequence for a fixed user. -/
structure ICall where
  emote : Option String
  platform : Option String
  totalOnly : Bool
  now : Nat

/-- A call that advances `total`: either `totalOnly` or a truthy
emote/platform pair. -/
def validICall (c : ICall) : Prop :=
  c.totalOnly = true ∨ (truthy c.emote = true ∧ truthy c.platform = true)

instance (c : ICall) : Decidable (validICall c) :=
  inferInstanceAs (Decidable (_ ∨ _))

/-- State reached by one queued call of the sequence. -/
def applyICall (cfg : StatsConfig) (u : String) (stats : List (String × UserStats))
    (c : ICall) : List (String × UserStats) :=
  (incrementStats cfg stats (some u) c.emote c.platform c.totalOnly c.now).1

/-- State reached by a sequence of `incrementStats` calls for user `u`. -/
def applyICalls (cfg : StatsConfig) (u : String) (stats : List (String × UserStats))
    (cs : List ICall) : List (String × UserStats) :=
  cs.foldl (applyICall cfg u) stats

/-! ### User ranking (getUserRank) -/

/-- A JS runtime error surfaced by the embedded code. -/
inductive JsError where
  | typeError
deriving DecidableEq, Repr

/-- Equality on `Except` results is decidable componentwise (needed to
evaluate concrete runs). -/
def exceptDecEq {e a : Type} [DecidableEq e] [DecidableEq a] :
    DecidableEq (Except e a)
  | Except.ok x, Except.ok y =>
    if h : x = y then Decidable.isTrue (h ▸ rfl)
    else Decidable.isFalse (fun hh => h (Except.ok.inj hh))
  | Except.error x, Except.error y =>
    if h : x = y then Decidable.isTrue (h ▸ rfl)
    else Decidable.isFalse (fun hh => h (Except.error.inj hh))
  | Except.ok _, Except.error _ => Decidable.isFalse (fun hh => Except.noConfusion hh)
  | Except.error _, Except.ok _ => Decidable.isFalse (fun hh => Except.noConfusion hh)

instance {e a : Type} [DecidableEq e] [DecidableEq a] : DecidableEq (Except e a) :=
  exceptDecEq

/-- `Array.prototype.findIndex`: index of the first element satisfying the
predicate (`none` for the JS result -1). -/
def jsFindIndex {α : Type} (p : α → Bool) : List α → Option Nat
  | [] => none
  | x :: xs => if p x then some 0 else (jsFindIndex p xs).map (fun i => i + 1)

/-- The comparator `(a, b) => b[1].total - a[1].total` as a relation:
descending by total. -/
def rankGE (a b : String × UserStats) : Prop :=
  b.2.total ≤ a.2.total

instance : DecidableRel rankGE := fun a b =>
  inferInstanceAs (Decidable (b.2.total ≤ a.2.total))

/-- `Object.entries(userStats).sort((a, b) => b[1].total - a[1].total)`:
Node's `Array.prototype.sort` is stable, and a stable sort is uniquely
determined by the comparator, so it is modelled by stable insertion sort
under `rankGE`. -/
def sortByTotalDesc (stats : List (String × UserStats)) : List (String × UserStats) :=
  List.insertionSort rankGE stats

/-- `getUserRank(username)`: position of the first case-insensitive name
match in the descending-total order (`null` when there is none), paired with
`userStats[username].total` — the latter a case-sensitive lookup whose
`.total` access throws a TypeError when only a case variant of the queried
name is stored. -/
def getUserRank (stats : List (String × UserStats)) (username : String) :
    Except JsError (Option (Nat × Nat)) :=
  let sorted := sortByTotalDesc stats
  match jsFindIndex (fun x => jsToLower x.1 = jsToLower username) sorted with
  | none => Except.ok none
  | some i =>
    match jsGet stats username with
    | some us => Except.ok (some (i + 1, us.total))
    | none => Except.error JsError.typeError

/-! ### Message classifier (EmoteProcessor.processMessage) -/

/-- One call into the stats handler made while processing a message, recorded
so the call pattern itself can be stated. -/
inductive StatsCall where
  | incTotal (user : String)
  | incEmote (user emote platform : String)
deriving DecidableEq, Repr

/-- Platform of a detected token as read off `getEmoteInfo(emote).platform`
in the processing loop (the default is never reached for a token that passed
`isEmote`). -/
def platOf (enabled : String → Bool) (cat : Catalog) (w : String) : String :=
  ((getEmoteInfo enabled cat w).map (fun e => e.platform)).getD ""

/-- The words of `message.split(' ')` that pass `isEmote` — the tokens the
classifier treats as emote occurrences (duplicates kept). -/
def detectedEmotes (enabled : String → Bool) (cat : Catalog) (message : String) :
    List String :=
  (jsSplitOnSpace message).filter (fun w => isEmote enabled cat w)

/-- Body of the per-detected-token loop of `processMessage`: reads
`getEmoteInfo`, calls `incrementEmoteCount` with the token and its platform,
and bumps `metrics.emotesDetected`, threading the map, the counter and the
call trace. -/
def processStep (enabled : String → Bool) (cat : Catalog) (username : String)
    (now : Nat) (acc : List (String × UserStats) × Nat × List StatsCall)
    (w : String) : List (String × UserStats) × Nat × List StatsCall :=
  match getEmoteInfo enabled cat w with
  | some info =>
    (incrementEmoteCount acc.1 (some username) (some w) (some info.platform) now,
      acc.2.1 + 1, acc.2.2 ++ [StatsCall.incEmote username w info.platform])
  | none => acc

/-- `processMessage(username, message)`: splits on single spaces, filters the
words through `isEmote`; when any are detected, makes exactly one
`incrementStats(username, null, null, true)` call, then for each detected
occurrence reads `getEmoteInfo` and calls `incrementEmoteCount` with its
platform, bumping `metrics.emotesDetected` each time. Returns the new map,
the new `emotesDetected` counter and the trace of stats-handler calls in
order. (A `null` `getEmoteInfo` in the loop is unreachable because the token
passed `isEmote` with the same configuration; the model leaves the state
unchanged on that dead branch.) -/
def processMessage (enabled : String → Bool) (cat : Catalog) (cfg : StatsConfig)
    (stats : List (String × UserStats)) (emotesDetected : Nat)
    (username message : String) (now : Nat) :
    List (String × UserStats) × Nat × List StatsCall :=
  let detected := detectedEmotes enabled cat message
  if detected.isEmpty then (stats, emotesDetected, [])
  else
    let stats1 := (incrementStats cfg stats (some username) none none true now).1
    detected.foldl (processStep enabled cat username now)
      (stats1, emotesDetected, [StatsCall.incTotal username])

/-! ### Snapshot persistence (saveStats / loadStats) -/

/-- JSON values; `JSON.stringify`/`JSON.parse` of finite trees of strings,
booleans and safe integers is lossless, so the file content is modelled by
the value itself. -/
inductive Json where
  | null
  | bool (b : Bool)
  | num (n : Nat)
  | str (s : String)
  | arr (elems : List Json)
  | obj (fields : List (String × Json))
deriving Repr

/-- JS truthiness of a parsed JSON value (`undefined` for a missing property
is represented by `Option.none` at the call sites). -/
def jsTruthy : Json → Bool
  | Json.null => false
  | Json.bool b => b
  | Json.num n => n ≠ 0
  | Json.str s => s ≠ ""
  | Json.arr _ => true
  | Json.obj _ => true

/-- Property read on a parsed JSON value; `none` is JS `undefined` (also for
reads on non-objects). -/
def jGet : Json → String → Option Json
  | Json.obj fields, k => jsGet fields k
  | _, _ => none

/-- Numeric property read used by the typed metrics merge. -/
def jGetNum (j : Json) (k : String) : Option Nat :=
  match jGet j k with
  | some (Json.num n) => some n
  | _ => none

/-- Serialization of one user record, fields in the order the code creates
them. -/
def encodeUserStats (u : UserStats) : Json :=
  Json.obj [("total", Json.num u.total),
    ("emotes", Json.obj (u.emotes.map (fun p => (p.1, Json.num p.2)))),
    ("platforms", Json.obj (u.platforms.map (fun p => (p.1, Json.num p.2)))),
    ("firstSeen", Json.num u.firstSeen),
    ("lastSeen", Json.num u.lastSeen)]

/-- Serialization of the whole username-to-stats map. -/
def encodeStats (m : List (String × UserStats)) : Json :=
  Json.obj (m.map (fun p => (p.1, encodeUserStats p.2)))

/-- Serialization of the metrics record, fields in constructor order. -/
def encodeMetrics (m : Metrics) : Json :=
  Json.obj [("messagesProcessed", Json.num m.messagesProcessed),
    ("emotesDetected", Json.num m.emotesDetected),
    ("commandsExecuted", Json.num m.commandsExecuted),
    ("lastSaveAttempt", Json.num m.lastSaveAttempt),
    ("totalSaves", Json.num m.totalSaves),
    ("failedSaves", Json.num m.failedSaves)]

/-- The `saveData` object written by `saveStats`:
`{stats: this.userStats, metrics: this.metrics, lastUpdate: Date.now()}` —
`stats` is JSON `null` when the map was never loaded (`this.userStats`
starts as `null`). -/
def saveData (userStats : Option (List (String × UserStats))) (metrics : Metrics)
    (now : Nat) : Json :=
  Json.obj [("stats", match userStats with
      | none => Json.null
      | some m => encodeStats m),
    ("metrics", encodeMetrics metrics),
    ("lastUpdate", Json.num now)]

/-- Decoder for a JSON object whose values are all numbers, inverse to the
encoding of the per-emote and per-platform counter maps. -/
def decodeNumPairs : List (String × Json) → Option (List (String × Nat))
  | [] => some []
  | p :: rest =>
    match p.2, decodeNumPairs rest with
    | Json.num n, some tail => some ((p.1, n) :: tail)
    | _, _ => none

/-- Decoder inverse to `encodeUserStats`, used to state losslessness of the
snapshot serialization. -/
def decodeUserStats : Json → Option UserStats
  | Json.obj [("total", Json.num t), ("emotes", Json.obj es),
      ("platforms", Json.obj ps), ("firstSeen", Json.num f),
      ("lastSeen", Json.num l)] =>
    match decodeNumPairs es, decodeNumPairs ps with
    | some emotes, some platforms =>
      some { total := t, emotes := emotes, platforms := platforms,
             firstSeen := f, lastSeen := l }
    | _, _ => none
  | _ => none

/-- Decoder for the entry list of an encoded stats map. -/
def decodeStatsEntries : List (String × Json) → Option (List (String × UserStats))
  | [] => some []
  | p :: rest =>
    match decodeUserStats p.2, decodeStatsEntries rest with
    | some u, some tail => some ((p.1, u) :: tail)
    | _, _ => none

/-- Decoder inverse to `encodeStats`. -/
def decodeStats (j : Json) : Option (List (String × UserStats)) :=
  match j with
  | Json.obj fields => decodeStatsEntries fields
  | _ => none

/-- The merge `{...this.metrics, ...parsedData.metrics}` projected onto the
six metric fields: a field present (as a number) in the parsed object
overrides the in-memory value, a missing one keeps it. -/
def mergeMetrics (cur : Metrics) (j : Json) : Metrics :=
  { messagesProcessed := (jGetNum j "messagesProcessed").getD cur.messagesProcessed
    emotesDetected := (jGetNum j "emotesDetected").getD cur.emotesDetected
    commandsExecuted := (jGetNum j "commandsExecuted").getD cur.commandsExecuted
    lastSaveAttempt := (jGetNum j "lastSaveAttempt").getD cur.lastSaveAttempt
    totalSaves := (jGetNum j "totalSaves").getD cur.totalSaves
    failedSaves := (jGetNum j "failedSaves").getD cur.failedSaves }

/-- The assignment phase of `loadStats` on a successfully parsed snapshot:
when `parsedData.stats` is truthy it becomes `this.userStats` (raw, as
parsed) and `this.metrics` is merged from `parsedData.metrics` when that is
truthy; otherwise the legacy branch installs the whole parsed object as the
stats map. Returns the raw in-memory stats value and the new metrics. -/
def loadStats (parsedData : Json) (cur : Metrics) : Json × Metrics :=
  match jGet parsedData "stats" with
  | some s =>
    if jsTruthy s then
      (s, match jGet parsedData "metrics" with
        | some mj => if jsTruthy mj then mergeMetrics cur mj else cur
        | none => cur)
    else (parsedData, cur)
  | none => (parsedData, cur)

/-! ### Save queue and memory release -/

/-- Settled state of the promise stored in `this.saveQueue` once the
operations queued so far have run (the queue starts as the fulfilled
`Promise.resolve()`). -/
inductive PResult where
  | fulfilled
  | rejected (e : Nat)
deriving DecidableEq, Repr

/-- Chaining one queued save onto the queue with
`this.saveQueue = this.saveQueue.then(op)` where `op` either completes its
write (outcome `none`) or fails with an error (outcome `some e`, after which
the temp file is removed and the error re-thrown). `then` with no rejection
handler never runs `op` on a rejected queue — the rejection propagates
unchanged. Returns whether the write executed and the promise handed back to
this caller. -/
def thenChain (q : PResult) (outcome : Option Nat) : Bool × PResult :=
  match q with
  | PResult.rejected e => (false, PResult.rejected e)
  | PResult.fulfilled =>
    match outcome with
    | none => (true, PResult.fulfilled)
    | some e => (true, PResult.rejected e)

/-- A sequence of `saveStats()` calls, each with the outcome its write would
have if executed: returns the final queue state and, per call, whether its
write executed and the settled result its caller observes. -/
def runSaveQueue (q : PResult) : List (Option Nat) → PResult × List (Bool × PResult)
  | [] => (q, [])
  | o :: rest =>
    let step := thenChain q o
    let tail := runSaveQueue step.2 rest
    (tail.1, step :: tail.2)

/-- In-memory state of the stats handler relevant to `freeMemory`. -/
structure StoreState where
  userStats : Option (List (String × UserStats))
  isLoaded : Bool
  saveQueue : PResult

/-- Method table entry `isPending` of the native ECMAScript promise stored in
`this.saveQueue` (`Promise.resolve()` and its `.then` chains): native
promises expose `then`, `catch` and `finally` but no `isPending` — that is a
Bluebird extension, and no promise library is loaded — so the property is
`undefined`. -/
def promiseIsPendingMethod : Option (PResult → Bool) := none

/-- `freeMemory()`: evaluates `this.saveQueue.isPending()`. Calling an
`undefined` property throws a TypeError (the async function rejects); were
the method present, a pending save would make the call a no-op and otherwise
`userStats` would be cleared and `isLoaded` reset. -/
def freeMemory (s : StoreState) : Except JsError StoreState :=
  match promiseIsPendingMethod with
  | none => Except.error JsError.typeError
  | some isPending =>
    if isPending s.saveQueue then Except.ok s
    else Except.ok { s with userStats := none, isLoaded := false }

/-! ### Helper characterizations and concrete fixtures -/

/-- Net effect of one non-early-returning `incrementStats` call on the
calling user's record (starting from the stored record, or the freshly
created one when the user was absent). -/
def incrementedRecord (r : UserStats) (emote platform : Option String)
    (totalOnly : Bool) (now : Nat) : UserStats :=
  let r2 := if totalOnly || (truthy emote && truthy platform) then
      { r with total := r.total + 1 }
    else r
  let r3 := if truthy emote && truthy platform then
      { r2 with emotes := bumpCount r2.emotes (emote.getD "")
                platforms := bumpCount r2.platforms (platform.getD "") }
    else r2
  { r3 with lastSeen := now }

/-- A user record carrying only a total, for concrete examples. -/
def demoUser (t : Nat) : UserStats :=
  { total := t, emotes := [], platforms := [], firstSeen := 0, lastSeen := 0 }

/-- The three-user fixture of the rank example: totals A 50, B 200, C 200 in
map iteration order A, B, C. -/
def demoRanks : List (String × UserStats) :=
  [("A", demoUser 50), ("B", demoUser 200), ("C", demoUser 200)]

/-- A catalog fixture: Kappa is a Twitch emote, PogChamp a BTTV emote. -/
def demoCatalog : Catalog :=
  { emotes := [("Kappa", EmoteRecord.mk "k1" "Kappa" "twitch" false),
      ("PogChamp", EmoteRecord.mk "p1" "PogChamp" "bttv" false)]
    lastUpdate := 0
    refreshInterval := 1800000 }

/-- An all-zero metrics fixture. -/
def demoMetrics : Metrics :=
  { messagesProcessed := 0, emotesDetected := 0, commandsExecuted := 0,
    lastSaveAttempt := 0, totalSaves := 0, failedSaves := 0 }

/-- A milestone configuration fixture with thresholds 100 and 500. -/
def demoStatsConfig : StatsConfig :=
  { milestones := [100, 500], mkMessage := fun _ => "" }

/-- A two-call fixture: one total-only call, one call with a valid
emote/platform pair. -/
def demoCalls : List ICall :=
  [ICall.mk none none true 5, ICall.mk (some "Kappa") (some "twitch") false 6]

/-- The end-to-end example run: user alice sends "Kappa Kappa PogChamp" with
both codes enabled and known, starting from an empty store. -/
def demoRun : List (String × UserStats) × Nat × List StatsCall :=
  processMessage (fun _ => true) demoCatalog demoStatsConfig [] 0 "alice"
    "Kappa Kappa PogChamp" 7

/-! ### Basic lemmas on the JS object model -/

theorem jsGet_jsSet_self {α : Type} (l : List (String × α)) (k : String) (v : α) :
    jsGet (jsSet l k v) k = some v := by
  induction l with
  | nil => simp [jsGet, jsSet]
  | cons hd tl ih =>
    by_cases h : hd.1 = k <;> simp [jsGet, jsSet, h, ih]

theorem jsGet_jsSet_ne {α : Type} (l : List (String × α)) (k q : String) (v : α)
    (h : q ≠ k) : jsGet (jsSet l k v) q = jsGet l q := by
  have hk : k ≠ q := fun hh => h hh.symm
  induction l with
  | nil => simp [jsGet, jsSet, hk]
  | cons hd tl ih =>
    by_cases h1 : hd.1 = k
    · simp [jsGet, jsSet, h1, hk]
    · simp [jsGet, jsSet, h1, ih]

theorem jsGet_updateF_self {α : Type} (l : List (String × α)) (k : String) (f : α → α) :
    jsGet (updateF l k f) k = (jsGet l k).map f := by
  induction l with
  | nil => simp [jsGet, updateF]
  | cons hd tl ih =>
    by_cases h : hd.1 = k <;> simp [jsGet, updateF, h, ih]

theorem countOf_bumpCount_self (l : List (String × Nat)) (k : String) :
    countOf (bumpCount l k) k = countOf l k + 1 := by
  simp [bumpCount, countOf, jsGet_jsSet_self]

/-! ### C1: milestone crossing -/

theorem firedCounts_eq_filter (cfg : StatsConfig) (p n : Nat) :
    firedCounts cfg p n =
      cfg.milestones.filter (fun m => decide (p < m) && decide (n ≥ m)) := by
  simp only [firedCounts, checkMilestone]
  split
  · rename_i h
    rw [List.isEmpty_iff, List.map_eq_nil_iff] at h
    simp [h]
  · simp [List.map_map, Function.comp_def]

/-- C1: `checkMilestone(prevTotal, newTotal, username)` reports exactly the
configured thresholds `m` with `prevTotal < m ≤ newTotal`; for an
ascending-configured threshold list the report is ascending; a threshold
already at or below `prevTotal` is never reported again; and the jump 0 to
650 over thresholds 100 and 500 reports both in that one call. -/
theorem checkMilestone_crossing_spec (cfg : StatsConfig) (prevTotal newTotal : Nat)
    (hsort : List.Sorted (fun a b => a ≤ b) cfg.milestones) :
    (∀ m, m ∈ firedCounts cfg prevTotal newTotal ↔
      m ∈ cfg.milestones ∧ prevTotal < m ∧ m ≤ newTotal) ∧
    List.Sorted (fun a b => a ≤ b) (firedCounts cfg prevTotal newTotal) ∧
    (∀ m, m ≤ prevTotal → m ∉ firedCounts cfg prevTotal newTotal) ∧
    (∀ f : Nat → String, firedCounts (StatsConfig.mk [100, 500] f) 0 650 = [100, 500]) := by
  have hmem : ∀ m, m ∈ firedCounts cfg prevTotal newTotal ↔
      m ∈ cfg.milestones ∧ prevTotal < m ∧ m ≤ newTotal := by
    intro m
    rw [firedCounts_eq_filter]
    simp [List.mem_filter, ge_iff_le, and_assoc]
  refine ⟨hmem, ?_, ?_, ?_⟩
  · rw [firedCounts_eq_filter]
    exact hsort.filter _
  · intro m hle hm
    have := ((hmem m).mp hm).2.1
    omega
  · intro f
    rw [firedCounts_eq_filter]
    rfl

theorem checkMilestone_crossing_spec_witness :
    List.Sorted (fun a b => a ≤ b) ([100, 500] : List Nat) ∧
    firedCounts (StatsConfig.mk [100, 500] (fun _ => "")) 0 650 = [100, 500] ∧
    (500 ∈ firedCounts (StatsConfig.mk [100, 500] (fun _ => "")) 0 650 ↔
      500 ∈ ([100, 500] : List Nat) ∧ 0 < 500 ∧ 500 ≤ 650) :=
  ⟨by decide,
   (checkMilestone_crossing_spec (StatsConfig.mk [100, 500] (fun _ => "")) 0 650
     (by decide)).2.2.2 (fun _ => ""),
   (checkMilestone_crossing_spec (StatsConfig.mk [100, 500] (fun _ => "")) 0 650
     (by decide)).1 500⟩

/-! ### C7: catalog refresh no-op inside the interval -/

/-- C7: inside the refresh interval `refreshEmotes` performs zero network
calls, leaves the emote map and `lastUpdate` (the whole catalog) unchanged
and writes no snapshot. -/
theorem refreshEmotes_within_interval_noop (cat : Catalog) (now : Nat)
    (cfgId chanId lookedUpId : Option String) (pr : ProviderResults)
    (h : now - cat.lastUpdate < cat.refreshInterval) :
    refreshEmotes cat now cfgId chanId lookedUpId pr = (Except.ok cat, 0, false) := by
  have hs : shouldRefresh cat now = false := by
    simp only [shouldRefresh, decide_eq_false_iff_not, not_le]
    exact h
  simp [refreshEmotes, hs]

theorem refreshEmotes_within_interval_noop_witness :
    120 - 100 < 50 ∧
    refreshEmotes (Catalog.mk [] 100 50) 120 none none none
      (ProviderResults.mk [] [] [] [] [] [] [] []) =
      (Except.ok (Catalog.mk [] 100 50), 0, false) :=
  ⟨by decide,
   refreshEmotes_within_interval_noop (Catalog.mk [] 100 50) 120 none none none
     (ProviderResults.mk [] [] [] [] [] [] [] []) (by decide)⟩

/-! ### C5: lookup gated by platform enablement at query time -/

/-- C5: `isEmote`/`getEmoteInfo` answer true / the cached record exactly when
the token is in the emote map and its record's platform is enabled at query
time; flipping just the flag (same map) flips both answers for that code,
and re-enabling restores them from the cached record. -/
theorem isEmote_getEmoteInfo_enablement_spec (enabled : String → Bool)
    (cat : Catalog) (w : String) :
    (isEmote enabled cat w = true ↔
      ∃ e, jsGet cat.emotes w = some e ∧ enabled e.platform = true) ∧
    (∀ e, getEmoteInfo enabled cat w = some e ↔
      jsGet cat.emotes w = some e ∧ enabled e.platform = true) ∧
    (∀ e, jsGet cat.emotes w = some e →
      isEmote (setFlag enabled e.platform false) cat w = false ∧
      getEmoteInfo (setFlag enabled e.platform false) cat w = none ∧
      isEmote (setFlag enabled e.platform true) cat w = true ∧
      getEmoteInfo (setFlag enabled e.platform true) cat w = some e) := by
  refine ⟨?_, ?_, ?_⟩
  · cases hg : jsGet cat.emotes w <;> simp [isEmote, hg]
  · intro e
    cases hg : jsGet cat.emotes w with
    | none => simp [getEmoteInfo, hg]
    | some e1 =>
      by_cases he : enabled e1.platform = true
      · simp only [getEmoteInfo, hg, he, if_true, Option.some.injEq]
        constructor
        · rintro rfl
          exact ⟨rfl, he⟩
        · rintro ⟨h1, _⟩
          exact h1
      · simp only [getEmoteInfo, hg, if_neg he, Option.some.injEq]
        constructor
        · intro h
          exact absurd h (by simp)
        · rintro ⟨rfl, h2⟩
          exact absurd h2 he
  · intro e hg
    refine ⟨?_, ?_, ?_, ?_⟩ <;> simp [isEmote, getEmoteInfo, hg, setFlag]

theorem isEmote_getEmoteInfo_enablement_spec_witness :
    jsGet demoCatalog.emotes "Kappa" =
      some (EmoteRecord.mk "k1" "Kappa" "twitch" false) ∧
    (isEmote (setFlag (fun _ => true) "twitch" false) demoCatalog "Kappa" = false ∧
     getEmoteInfo (setFlag (fun _ => true) "twitch" false) demoCatalog "Kappa" = none ∧
     isEmote (setFlag (fun _ => true) "twitch" true) demoCatalog "Kappa" = true ∧
     getEmoteInfo (setFlag (fun _ => true) "twitch" true) demoCatalog "Kappa" =
       some (EmoteRecord.mk "k1" "Kappa" "twitch" false)) :=
  ⟨by decide,
   (isEmote_getEmoteInfo_enablement_spec (fun _ => true) demoCatalog "Kappa").2.2
     (EmoteRecord.mk "k1" "Kappa" "twitch" false) (by decide)⟩

/-! ### C10: guard clauses on falsy arguments -/

/-- C10: with a falsy username, `incrementStats` returns `undefined` leaving
the map untouched, and with any falsy argument `incrementEmoteCount` returns
leaving the map untouched — no partial increment, no created entry, no
raise. -/
theorem increment_guard_noop_spec (cfg : StatsConfig)
    (stats : List (String × UserStats)) (username emote platform : Option String)
    (t : Bool) (now : Nat) :
    (truthy username = false →
      incrementStats cfg stats username emote platform t now = (stats, none)) ∧
    (truthy username = false ∨ truthy emote = false ∨ truthy platform = false →
      incrementEmoteCount stats username emote platform now = stats) := by
  constructor
  · intro h
    match username with
    | none => rfl
    | some u =>
      have hu : u = "" := by simpa [truthy] using h
      simp [incrementStats, hu]
  · intro h
    have hg : (truthy username && truthy emote && truthy platform) = false := by
      rcases h with h | h | h <;> simp [h]
    simp [incrementEmoteCount, hg]

theorem increment_guard_noop_spec_witness :
    truthy (some "") = false ∧
    incrementStats demoStatsConfig demoRanks (some "") (some "Kappa") (some "twitch")
      false 9 = (demoRanks, none) ∧
    incrementEmoteCount demoRanks (some "alice") none (some "twitch") 9 = demoRanks :=
  ⟨by decide,
   (increment_guard_noop_spec demoStatsConfig demoRanks (some "") (some "Kappa")
     (some "twitch") false 9).1 (by decide),
   (increment_guard_noop_spec demoStatsConfig demoRanks (some "alice") none
     (some "twitch") false 9).2 (by decide)⟩

/-! ### C6: freeMemory calls a method native promises do not have -/

/-- C6 (code bug): every `freeMemory()` call evaluates
`this.saveQueue.isPending()` on a native promise, which has no such method,
so the call always throws a TypeError (the async function rejects) and the
in-memory maps are never released — contradicting the claimed
no-op-or-clear behaviour with a normal return. -/
theorem freeMemory_always_throws_typeError (s : StoreState) :
    freeMemory s = Except.error JsError.typeError := rfl

/-! ### C3: a failed save poisons the promise-chained queue -/

/-- C3 (code bug): chaining with `this.saveQueue.then(op)` and no rejection
handler means a failed write leaves the queue rejected; the concrete run
[fail 7, would-succeed] executes the first write only, and the second caller
observes the first call's error instead of its own write — and in general no
write queued after a rejection ever executes. -/
theorem saveQueue_failure_blocks_later_saves :
    runSaveQueue PResult.fulfilled [some 7, none] =
      (PResult.rejected 7,
        [(true, PResult.rejected 7), (false, PResult.rejected 7)]) ∧
    (∀ (e : Nat) (outcomes : List (Option Nat)),
      (runSaveQueue (PResult.rejected e) outcomes).2.map (fun r => r.1) =
        outcomes.map (fun _ => false)) := by
  refine ⟨rfl, ?_⟩
  intro e outcomes
  induction outcomes with
  | nil => rfl
  | cons o rest ih => simp [runSaveQueue, thenChain, ih]

/-! ### C2: counting discipline of incrementStats -/

theorem jsGet_incrementStats_self (cfg : StatsConfig)
    (stats : List (String × UserStats)) (u : String) (e p : Option String)
    (t : Bool) (now : Nat) (hu : u ≠ "") :
    jsGet (incrementStats cfg stats (some u) e p t now).1 u =
      some (incrementedRecord ((jsGet stats u).getD (emptyUser now)) e p t now) := by
  cases hg : jsGet stats u <;> cases t <;> cases htp : (truthy e && truthy p) <;>
    simp [incrementStats, incrementedRecord, hu, hg, htp,
      jsGet_jsSet_self, jsGet_updateF_self]

theorem userTotal_eq_getD (stats : List (String × UserStats)) (u : String) (now : Nat) :
    userTotal stats u = ((jsGet stats u).getD (emptyUser now)).total := by
  cases hg : jsGet stats u <;> simp [userTotal, hg, emptyUser]

theorem userEmoteCount_eq_getD (stats : List (String × UserStats)) (u k : String)
    (now : Nat) :
    userEmoteCount stats u k = countOf ((jsGet stats u).getD (emptyUser now)).emotes k := by
  cases hg : jsGet stats u <;> simp [userEmoteCount, hg, emptyUser]

theorem userPlatformCount_eq_getD (stats : List (String × UserStats)) (u k : String)
    (now : Nat) :
    userPlatformCount stats u k =
      countOf ((jsGet stats u).getD (emptyUser now)).platforms k := by
  cases hg : jsGet stats u <;> simp [userPlatformCount, hg, emptyUser]

theorem userTotal_incrementStats_valid (cfg : StatsConfig)
    (stats : List (String × UserStats)) (u : String) (e p : Option String)
    (t : Bool) (now : Nat) (hu : u ≠ "")
    (hv : t = true ∨ (truthy e = true ∧ truthy p = true)) :
    userTotal (incrementStats cfg stats (some u) e p t now).1 u =
      userTotal stats u + 1 := by
  have hb : (t || (truthy e && truthy p)) = true := by
    rcases hv with h | ⟨h1, h2⟩
    · simp [h]
    · simp [h1, h2]
  rw [userTotal, jsGet_incrementStats_self cfg stats u e p t now hu,
    userTotal_eq_getD stats u now]
  cases htp : (truthy e && truthy p) with
  | false =>
    have ht : t = true := by simpa [htp] using hb
    simp [incrementedRecord, htp, ht]
  | true =>
    simp [incrementedRecord, hb, htp]

theorem userTotal_incrementStats_invalid (cfg : StatsConfig)
    (stats : List (String × UserStats)) (u : String) (e p : Option String)
    (now : Nat) (hu : u ≠ "") (htp : (truthy e && truthy p) = false) :
    userTotal (incrementStats cfg stats (some u) e p false now).1 u =
      userTotal stats u := by
  rw [userTotal, jsGet_incrementStats_self cfg stats u e p false now hu,
    userTotal_eq_getD stats u now]
  simp [incrementedRecord, htp]

theorem counters_incrementStats_both (cfg : StatsConfig)
    (stats : List (String × UserStats)) (u : String) (e p : Option String)
    (t : Bool) (now : Nat) (hu : u ≠ "") (he : truthy e = true)
    (hp : truthy p = true) :
    userEmoteCount (incrementStats cfg stats (some u) e p t now).1 u (e.getD "") =
      userEmoteCount stats u (e.getD "") + 1 ∧
    userPlatformCount (incrementStats cfg stats (some u) e p t now).1 u (p.getD "") =
      userPlatformCount stats u (p.getD "") + 1 := by
  constructor
  · rw [userEmoteCount, jsGet_incrementStats_self cfg stats u e p t now hu,
      userEmoteCount_eq_getD stats u (e.getD "") now]
    cases t <;> simp [incrementedRecord, he, hp, countOf_bumpCount_self]
  · rw [userPlatformCount, jsGet_incrementStats_self cfg stats u e p t now hu,
      userPlatformCount_eq_getD stats u (p.getD "") now]
    cases t <;> simp [incrementedRecord, he, hp, countOf_bumpCount_self]

theorem applyICalls_total (cfg : StatsConfig) (u : String) (hu : u ≠ "") :
    ∀ (cs : List ICall) (stats : List (String × UserStats)),
      (∀ c ∈ cs, validICall c) →
      userTotal (applyICalls cfg u stats cs) u = userTotal stats u + cs.length := by
  intro cs
  induction cs with
  | nil =>
    intro stats _
    simp [applyICalls]
  | cons c rest ih =>
    intro stats hv
    have hc : validICall c := hv c (List.mem_cons_self _ _)
    have hr : ∀ x ∈ rest, validICall x := fun x hx => hv x (List.mem_cons_of_mem _ hx)
    have hfold : applyICalls cfg u stats (c :: rest) =
        applyICalls cfg u (applyICall cfg u stats c) rest := rfl
    rw [hfold, ih (applyICall cfg u stats c) hr]
    have step : userTotal (applyICall cfg u stats c) u = userTotal stats u + 1 :=
      userTotal_incrementStats_valid cfg stats u c.emote c.platform c.totalOnly c.now hu hc
    rw [step]
    simp [List.length_cons]
    omega

/-- C2: over any sequence of valid calls (total-only, or a truthy
emote/platform pair) the user's total advances by exactly the number of
calls (so from a fresh user it equals N); a single valid call adds exactly 1
and an invalid non-total-only call adds 0; and when both emote and platform
are supplied the matching per-emote and per-platform counters each advance
by exactly 1. -/
theorem incrementStats_counting_spec (cfg : StatsConfig) (u : String) (hu : u ≠ "") :
    (∀ (stats : List (String × UserStats)) (cs : List ICall),
      (∀ c ∈ cs, validICall c) →
      userTotal (applyICalls cfg u stats cs) u = userTotal stats u + cs.length) ∧
    (∀ (stats : List (String × UserStats)) (cs : List ICall),
      (∀ c ∈ cs, validICall c) → jsGet stats u = none →
      userTotal (applyICalls cfg u stats cs) u = cs.length) ∧
    (∀ (stats : List (String × UserStats)) (e p : Option String) (t : Bool) (now : Nat),
      (t = true ∨ (truthy e = true ∧ truthy p = true)) →
      userTotal (incrementStats cfg stats (some u) e p t now).1 u =
        userTotal stats u + 1) ∧
    (∀ (stats : List (String × UserStats)) (e p : Option String) (now : Nat),
      (truthy e && truthy p) = false →
      userTotal (incrementStats cfg stats (some u) e p false now).1 u =
        userTotal stats u) ∧
    (∀ (stats : List (String × UserStats)) (e p : Option String) (t : Bool) (now : Nat),
      truthy e = true → truthy p = true →
      userEmoteCount (incrementStats cfg stats (some u) e p t now).1 u (e.getD "") =
        userEmoteCount stats u (e.getD "") + 1 ∧
      userPlatformCount (incrementStats cfg stats (some u) e p t now).1 u (p.getD "") =
        userPlatformCount stats u (p.getD "") + 1) := by
  refine ⟨fun stats cs hv => applyICalls_total cfg u hu cs stats hv, ?_, ?_, ?_, ?_⟩
  · intro stats cs hv hnone
    rw [applyICalls_total cfg u hu cs stats hv]
    simp [userTotal, hnone]
  · intro stats e p t now hv
    exact userTotal_incrementStats_valid cfg stats u e p t now hu hv
  · intro stats e p now htp
    exact userTotal_incrementStats_invalid cfg stats u e p now hu htp
  · intro stats e p t now he hp
    exact counters_incrementStats_both cfg stats u e p t now hu he hp

theorem incrementStats_counting_spec_witness :
    ("alice" ≠ "") ∧ (∀ c ∈ demoCalls, validICall c) ∧
    userTotal (applyICalls demoStatsConfig "alice" [] demoCalls) "alice" =
      demoCalls.length :=
  ⟨by decide, by decide,
   (incrementStats_counting_spec demoStatsConfig "alice" (by decide)).2.1 []
     demoCalls (by decide) (by decide)⟩

/-! ### C4: call pattern and effect of processMessage -/

theorem getEmoteInfo_of_isEmote (enabled : String → Bool) (cat : Catalog)
    (w : String) (h : isEmote enabled cat w = true) :
    ∃ info, getEmoteInfo enabled cat w = some info ∧
      platOf enabled cat w = info.platform := by
  cases hg : jsGet cat.emotes w with
  | none => simp [isEmote, hg] at h
  | some e =>
    have he : enabled e.platform = true := by simpa [isEmote, hg] using h
    exact ⟨e, by simp [getEmoteInfo, hg, he], by simp [platOf, getEmoteInfo, hg, he]⟩

theorem processStep_foldl (enabled : String → Bool) (cat : Catalog) (u : String)
    (now : Nat) :
    ∀ (ws : List String), (∀ w ∈ ws, isEmote enabled cat w = true) →
    ∀ acc : List (String × UserStats) × Nat × List StatsCall,
      (ws.foldl (processStep enabled cat u now) acc).2.2 =
        acc.2.2 ++ ws.map (fun w => StatsCall.incEmote u w (platOf enabled cat w)) ∧
      (ws.foldl (processStep enabled cat u now) acc).2.1 = acc.2.1 + ws.length := by
  intro ws
  induction ws with
  | nil =>
    intro _ acc
    simp
  | cons w rest ih =>
    intro hws acc
    have hw : isEmote enabled cat w = true := hws w (List.mem_cons_self _ _)
    obtain ⟨info, hinfo, hplat⟩ := getEmoteInfo_of_isEmote enabled cat w hw
    have hrest : ∀ x ∈ rest, isEmote enabled cat x = true :=
      fun x hx => hws x (List.mem_cons_of_mem _ hx)
    have hstep : processStep enabled cat u now acc w =
        (incrementEmoteCount acc.1 (some u) (some w) (some info.platform) now,
          acc.2.1 + 1, acc.2.2 ++ [StatsCall.incEmote u w info.platform]) := by
      simp [processStep, hinfo]
    rw [List.foldl_cons, hstep]
    obtain ⟨h1, h2⟩ := ih hrest
      (incrementEmoteCount acc.1 (some u) (some w) (some info.platform) now,
        acc.2.1 + 1, acc.2.2 ++ [StatsCall.incEmote u w info.platform])
    constructor
    · rw [h1]
      simp [hplat]
    · rw [h2]
      simp
      omega

/-- C4: when at least one token of the message is an enabled emote,
`processMessage` makes exactly one total-only `incrementStats` call for the
whole message followed by exactly one `incrementEmoteCount` call per
detected token occurrence (in token order, duplicates counted each time),
bumping `metrics.emotesDetected` once per occurrence, and does nothing when
no token matches; on "Kappa Kappa PogChamp" from a fresh alice with both
codes enabled, her total is 1, Kappa 2, PogChamp 1, twitch 2, bttv 1, and
3 emotes are detected. -/
theorem processMessage_call_pattern_spec (enabled : String → Bool) (cat : Catalog)
    (cfg : StatsConfig) (stats : List (String × UserStats)) (n : Nat)
    (u msg : String) (now : Nat) :
    (detectedEmotes enabled cat msg = [] →
      processMessage enabled cat cfg stats n u msg now = (stats, n, [])) ∧
    (detectedEmotes enabled cat msg ≠ [] →
      (processMessage enabled cat cfg stats n u msg now).2.2 =
        StatsCall.incTotal u ::
          (detectedEmotes enabled cat msg).map
            (fun w => StatsCall.incEmote u w (platOf enabled cat w)) ∧
      (processMessage enabled cat cfg stats n u msg now).2.1 =
        n + (detectedEmotes enabled cat msg).length) ∧
    (userTotal demoRun.1 "alice" = 1 ∧
      userEmoteCount demoRun.1 "alice" "Kappa" = 2 ∧
      userEmoteCount demoRun.1 "alice" "PogChamp" = 1 ∧
      userPlatformCount demoRun.1 "alice" "twitch" = 2 ∧
      userPlatformCount demoRun.1 "alice" "bttv" = 1 ∧
      demoRun.2.1 = 3) := by
  refine ⟨?_, ?_, ?_⟩
  · intro h
    simp [processMessage, h]
  · intro h
    have hne : (detectedEmotes enabled cat msg).isEmpty = false := by
      simpa [List.isEmpty_iff] using h
    have hall : ∀ w ∈ detectedEmotes enabled cat msg, isEmote enabled cat w = true :=
      fun w hw => (List.mem_filter.mp hw).2
    obtain ⟨h1, h2⟩ := processStep_foldl enabled cat u now
      (detectedEmotes enabled cat msg) hall
      ((incrementStats cfg stats (some u) none none true now).1, n,
        [StatsCall.incTotal u])
    constructor
    · rw [processMessage]
      simp only [hne, Bool.false_eq_true, if_false]
      rw [h1]
      simp
    · rw [processMessage]
      simp only [hne, Bool.false_eq_true, if_false]
      rw [h2]
  · exact ⟨by decide, by decide, by decide, by decide, by decide, by decide⟩

theorem processMessage_call_pattern_spec_witness :
    detectedEmotes (fun _ => true) demoCatalog "Kappa Kappa PogChamp" ≠ [] ∧
    (demoRun.2.2 = StatsCall.incTotal "alice" ::
      (detectedEmotes (fun _ => true) demoCatalog "Kappa Kappa PogChamp").map
        (fun w => StatsCall.incEmote "alice" w
          (platOf (fun _ => true) demoCatalog w)) ∧
    demoRun.2.1 = 0 +
      (detectedEmotes (fun _ => true) demoCatalog "Kappa Kappa PogChamp").length) :=
  ⟨by decide,
   (processMessage_call_pattern_spec (fun _ => true) demoCatalog demoStatsConfig
     [] 0 "alice" "Kappa Kappa PogChamp" 7).2.1 (by decide)⟩

/-! ### C8: snapshot round-trip -/

theorem decodeNumPairs_roundtrip (l : List (String × Nat)) :
    decodeNumPairs (l.map (fun p => (p.1, Json.num p.2))) = some l := by
  induction l with
  | nil => rfl
  | cons hd tl ih => simp [decodeNumPairs, ih]

theorem decodeUserStats_encode (u : UserStats) :
    decodeUserStats (encodeUserStats u) = some u := by
  simp [encodeUserStats, decodeUserStats, decodeNumPairs_roundtrip]

theorem decodeStats_encode (m : List (String × UserStats)) :
    decodeStats (encodeStats m) = some m := by
  induction m with
  | nil => rfl
  | cons hd tl ih =>
    simp only [encodeStats, decodeStats] at ih ⊢
    simp [decodeStatsEntries, decodeUserStats_encode, ih]

theorem mergeMetrics_encode (cur m : Metrics) :
    mergeMetrics cur (encodeMetrics m) = m := rfl

theorem jsTruthy_encodeStats (l : List (String × UserStats)) :
    jsTruthy (encodeStats l) = true := rfl

theorem jsTruthy_encodeMetrics (m : Metrics) :
    jsTruthy (encodeMetrics m) = true := rfl

/-- C8 (amended): for every loaded state — stats map present, possibly
empty — saving and then loading the produced snapshot restores exactly the
saved user-stats content (the raw loaded value is the encoded map, and
decoding it restores the map losslessly) and exactly the saved metrics
(every field of the merged metrics comes from the snapshot). The unloaded
state (`userStats === null`) is excluded: see the counterexample. -/
theorem snapshot_roundtrip_loaded_spec (us : List (String × UserStats))
    (m cur : Metrics) (now : Nat) :
    (loadStats (saveData (some us) m now) cur).1 = encodeStats us ∧
    decodeStats (encodeStats us) = some us ∧
    (loadStats (saveData (some us) m now) cur).2 = m := by
  refine ⟨?_, decodeStats_encode us, ?_⟩
  · simp [loadStats, saveData, jGet, jsGet, jsTruthy_encodeStats]
  · simp [loadStats, saveData, jGet, jsGet, jsTruthy_encodeStats,
      jsTruthy_encodeMetrics, mergeMetrics_encode]

/-- C8 counterexample: from the unloaded state (`userStats === null`, as
after construction) the snapshot stores `stats: null`, and loading it takes
the legacy branch: the whole wrapper object — not the saved null stats
content — becomes the in-memory stats map, so the round-trip is not the
identity on every store state. -/
theorem snapshot_roundtrip_fails_on_null_stats :
    saveData none demoMetrics 5 =
      Json.obj [("stats", Json.null), ("metrics", encodeMetrics demoMetrics),
        ("lastUpdate", Json.num 5)] ∧
    (loadStats (saveData none demoMetrics 5) demoMetrics).1 =
      saveData none demoMetrics 5 ∧
    (loadStats (saveData none demoMetrics 5) demoMetrics).1 ≠ Json.null := by
  refine ⟨rfl, rfl, ?_⟩
  have h1 : (loadStats (saveData none demoMetrics 5) demoMetrics).1 =
      Json.obj [("stats", Json.null), ("metrics", encodeMetrics demoMetrics),
        ("lastUpdate", Json.num 5)] := rfl
  rw [h1]
  exact fun h => Json.noConfusion h

/-! ### C9: user ranking -/

instance : IsTotal (String × UserStats) rankGE :=
  ⟨fun a b => le_total b.2.total a.2.total⟩

instance : IsTrans (String × UserStats) rankGE :=
  ⟨fun _ _ _ hab hbc => le_trans hbc hab⟩

theorem jsFindIndex_some {α : Type} (p : α → Bool) :
    ∀ (l : List α) (i : Nat), jsFindIndex p l = some i →
      ∃ x, l.get? i = some x ∧ p x = true ∧ x ∈ l := by
  intro l
  induction l with
  | nil =>
    intro i h
    simp [jsFindIndex] at h
  | cons hd tl ih =>
    intro i h
    by_cases hp : p hd = true
    · simp only [jsFindIndex, hp, if_true, Option.some.injEq] at h
      exact ⟨hd, by simp [← h], hp, List.mem_cons_self _ _⟩
    · have hpf : p hd = false := by simpa using hp
      cases htl : jsFindIndex p tl with
      | none =>
        simp [jsFindIndex, hpf, htl] at h
      | some j =>
        simp only [jsFindIndex, hpf, Bool.false_eq_true, if_false, htl,
          Option.map_some', Option.some.injEq] at h
        obtain ⟨x, hx, hpx, hxm⟩ := ih j htl
        refine ⟨x, ?_, hpx, List.mem_cons_of_mem _ hxm⟩
        rw [← h]
        simpa using hx

theorem jsFindIndex_none {α : Type} (p : α → Bool) :
    ∀ l : List α, jsFindIndex p l = none ↔ ∀ x ∈ l, p x = false := by
  intro l
  induction l with
  | nil => simp [jsFindIndex]
  | cons hd tl ih =>
    by_cases hp : p hd = true <;> simp [jsFindIndex, hp, ih]

theorem jsFindIndex_of_mem {α : Type} (p : α → Bool) (l : List α) (x : α)
    (hx : x ∈ l) (hpx : p x = true) : ∃ i, jsFindIndex p l = some i := by
  cases h : jsFindIndex p l with
  | some i => exact ⟨i, rfl⟩
  | none =>
    have := (jsFindIndex_none p l).mp h x hx
    rw [hpx] at this
    exact absurd this (by simp)

theorem jsGet_mem {α : Type} :
    ∀ (l : List (String × α)) (k : String) (v : α),
      jsGet l k = some v → (k, v) ∈ l := by
  intro l
  induction l with
  | nil =>
    intro k v h
    simp [jsGet] at h
  | cons hd tl ih =>
    intro k v h
    by_cases h1 : hd.1 = k
    · simp only [jsGet, h1, if_true, Option.some.injEq] at h
      have : (k, v) = hd := by
        rw [← h1, ← h]
      rw [this]
      exact List.mem_cons_self _ _
    · simp only [jsGet, h1, if_false] at h
      exact List.mem_cons_of_mem _ (ih k v h)

/-- C9 (amended): for a stored username (exact key, all stored names
pairwise case-insensitively distinct), `getUserRank` returns the 1-based
position of that user's entry in the stable descending-by-total order of the
map entries, paired with the user's total; the order is a permutation of the
entries sorted descending by total (stability fixes ties to iteration
order); a name with no case-insensitive match yields `null`; a name whose
match is stored only under a different capitalization makes the call throw a
TypeError instead of returning `null`; and on totals A 50, B 200, C 200 the
ranks are B first, C second, A third. -/
theorem getUserRank_rank_spec (stats : List (String × UserStats)) (u : String)
    (us : UserStats)
    (hdis : stats.Pairwise (fun a b => jsToLower a.1 ≠ jsToLower b.1))
    (hu : jsGet stats u = some us) :
    (∃ i, (sortByTotalDesc stats).get? i = some (u, us) ∧
      getUserRank stats u = Except.ok (some (i + 1, us.total))) ∧
    List.Sorted rankGE (sortByTotalDesc stats) ∧
    (sortByTotalDesc stats).Perm stats ∧
    (∀ q : String, (∀ x ∈ stats, jsToLower x.1 ≠ jsToLower q) →
      getUserRank stats q = Except.ok none) ∧
    (∀ (q : String) (y : String × UserStats), y ∈ stats →
      jsToLower y.1 = jsToLower q → jsGet stats q = none →
      getUserRank stats q = Except.error JsError.typeError) ∧
    (getUserRank demoRanks "B" = Except.ok (some (1, 200)) ∧
      getUserRank demoRanks "C" = Except.ok (some (2, 200)) ∧
      getUserRank demoRanks "A" = Except.ok (some (3, 50))) := by
  have hperm : (sortByTotalDesc stats).Perm stats :=
    List.perm_insertionSort rankGE stats
  have hsorted : List.Sorted rankGE (sortByTotalDesc stats) :=
    List.sorted_insertionSort rankGE stats
  refine ⟨?_, hsorted, hperm, ?_, ?_, by decide, by decide, by decide⟩
  · have hmem : (u, us) ∈ stats := jsGet_mem stats u us hu
    have hmem2 : (u, us) ∈ sortByTotalDesc stats := hperm.mem_iff.mpr hmem
    obtain ⟨i, hi⟩ := jsFindIndex_of_mem
      (fun x => decide (jsToLower x.1 = jsToLower u)) (sortByTotalDesc stats)
      (u, us) hmem2 (by simp)
    obtain ⟨x, hx, hpx, hxm⟩ := jsFindIndex_some _ _ i hi
    have hxstats : x ∈ stats := hperm.mem_iff.mp hxm
    have hxeq : x = (u, us) := by
      by_contra hne
      have hsym : Symmetric (fun a b : String × UserStats =>
          jsToLower a.1 ≠ jsToLower b.1) := fun a b hab => fun h => hab h.symm
      have := hdis.forall hsym hxstats hmem hne
      simp only [decide_eq_true_eq] at hpx
      exact this hpx
    refine ⟨i, by rw [← hxeq]; exact hx, ?_⟩
    simp [getUserRank, hi, hu]
  · intro q hq
    have hnone : jsFindIndex (fun x => decide (jsToLower x.1 = jsToLower q))
        (sortByTotalDesc stats) = none := by
      rw [jsFindIndex_none]
      intro x hx
      have := hq x (hperm.mem_iff.mp hx)
      simp [this]
    simp [getUserRank, hnone]
  · intro q y hy hyq hqn
    have hy2 : y ∈ sortByTotalDesc stats := hperm.mem_iff.mpr hy
    obtain ⟨i, hi⟩ := jsFindIndex_of_mem
      (fun x => decide (jsToLower x.1 = jsToLower q)) (sortByTotalDesc stats) y hy2
      (by simp [hyq])
    simp [getUserRank, hi, hqn]

theorem getUserRank_rank_spec_witness :
    demoRanks.Pairwise (fun a b => jsToLower a.1 ≠ jsToLower b.1) ∧
    jsGet demoRanks "B" = some (demoUser 200) ∧
    (∃ i, (sortByTotalDesc demoRanks).get? i = some ("B", demoUser 200) ∧
      getUserRank demoRanks "B" = Except.ok (some (i + 1, (demoUser 200).total))) :=
  ⟨by decide, by decide,
   (getUserRank_rank_spec demoRanks "B" (demoUser 200) (by decide) (by decide)).1⟩

/-- C9 counterexample: with only "Alice" stored, the queried name "alice" is
not present in the (case-sensitive) user set, so the claim requires `null`;
the code finds the case-insensitive match, then crashes with a TypeError
reading `.total` of `userStats["alice"]`, which is `undefined`. -/
theorem getUserRank_case_variant_typeError :
    jsGet [("Alice", demoUser 1)] "alice" = none ∧
    getUserRank [("Alice", demoUser 1)] "alice" = Except.error JsError.typeError := by
  exact ⟨by decide, by decide⟩

end TwitchEC
